import Mathlib

/-!
Verification of the concurrent per-day registration orchestrator
(`src/main.py` of the popmart registration bot).

The Python source is shallowly embedded: pure helpers (`is_session_full`,
`is_admin`, `build_payload`) become Lean functions; the per-row captcha
attempt loop of `process_day` becomes a structurally recursive function
(`runRowFuel`) driven by a per-attempt oracle that supplies the outcome of
every network call (an exception, or a value); the per-day driver becomes
`processDay`; the day-registry sets `ACTIVE_DAYS` / `COMPLETED_DAYS`
become a `DayState` of membership lists with set semantics; the manual
captcha store `PENDING_CAPTCHAS` becomes an insertion-ordered association
list with the same string keys `f"{chat_id}:{day}:{row_idx}"`, and the
Telegram handlers `start`, `handle_excel`, `handle_text` become functions
from their inputs (and oracles for the external collaborators) to the
replies they send and the state they leave behind.

Caveats of the embedding, stated once here:
* `String.toLower` in Lean lowers only ASCII letters while Python's
  `str.lower` is Unicode-aware.  The session-full key phrases in the
  source are already lowercase, and no theorem below depends on lowering
  a non-ASCII character, so the difference is immaterial for the claims.
* Replies sent over Telegram are modelled as trace events and are assumed
  not to raise; every HTTP call of the gateway and the solver can either
  return a value or raise (`CallRes.exn`), matching the `try/except`
  structure of `process_day`.
* Excel cell values are modelled by `Cell` (string / int / float with an
  integral value); the date-of-birth columns, which the source feeds to
  `int(...)`, are modelled by `NumCell` (int or float-with-zero-fraction),
  the domain the specification talks about.
-/

namespace Popmart

/-- Substring test on character lists: does `needle` occur inside the list?
Mirrors Python's `needle in hay` on strings. -/
def listHas (needle : List Char) : List Char → Bool
  | [] => needle.isEmpty
  | c :: t => needle.isPrefixOf (c :: t) || listHas needle t

/-- Python's `needle in hay` substring containment on strings. -/
def strContains (hay needle : String) : Bool :=
  listHas needle.data hay.data

/-- Python's `s.startswith(p)`. -/
def strStartsWith (s p : String) : Bool :=
  p.data.isPrefixOf s.data

/-- Python's `s.lower()` (ASCII letters; see the header caveat).  Defined
over the character list so that it reduces inside the kernel. -/
def pyLower (s : String) : String :=
  ⟨s.data.map Char.toLower⟩

/-- Python's `s.strip()`: drop whitespace from both ends. -/
def pyStrip (s : String) : String :=
  ⟨((s.data.dropWhile Char.isWhitespace).reverse.dropWhile Char.isWhitespace).reverse⟩

/-- Python's `s.endswith(p)`. -/
def strEndsWith (s p : String) : Bool :=
  p.data.isSuffixOf s.data

/-- Decimal digits of a natural number, most significant first.  This is a
fuel-free reformulation of core's `Nat.toDigitsCore`; the equivalence with
`Nat.repr` is proved below. -/
def natDigits (n : Nat) : List Char :=
  if _h : n < 10 then [Nat.digitChar n]
  else natDigits (n / 10) ++ [Nat.digitChar (n % 10)]
decreasing_by exact Nat.div_lt_self (by omega) (by omega)

/-- Numeric value of a decimal digit character. -/
def digVal (c : Char) : Nat := c.toNat - 48

/-- Decode a most-significant-first decimal digit string. -/
def decodeDigits (l : List Char) : Nat :=
  l.foldl (fun a c => a * 10 + digVal c) 0

/-- The characters of `str(i)` for an integer `i` (Python's decimal
rendering coincides with Lean's `toString` on `Int`). -/
def intChars (i : Int) : List Char := (toString i).data

/-- The literal success marker tested by `process_day` and `handle_text`:
`"!!!True|~~|" in result`. -/
def SUCCESS_MARKER : String := "!!!True|~~|"

/-- The known "session full" phrases of `is_session_full` (src/main.py,
lines 195-203), verbatim. -/
def sessionFullKeys : List String :=
  ["đã hết số lượng đăng ký phiên này",
   "het so luong dang ky phien nay",
   "this session is full",
   "session is full"]

/-- `is_session_full` (src/main.py 195-203): lowercase the text and test
whether any known phrase occurs in it. -/
def is_session_full (text : String) : Bool :=
  sessionFullKeys.any (fun k => strContains (pyLower text) k)

/-- `is_admin` (src/main.py 206-207): `not ADMINS or str(uid) in ADMINS`. -/
def is_admin (admins : List String) (uid : Int) : Bool :=
  admins.isEmpty || admins.contains (toString uid)

/-- An Excel cell value as the payload builder sees it. -/
inductive Cell
  | strV (s : String)
  | intV (n : Int)
  | floatIntV (n : Int)
deriving DecidableEq

/-- A numeric Excel cell: an int, or a float whose fractional part is
zero (the two cases the specification discusses for the DOB columns). -/
inductive NumCell
  | intV (n : Int)
  | floatIntV (n : Int)
deriving DecidableEq

/-- Python's `str(...)` on a cell value (`str(5.0)` is `"5.0"`). -/
def pyStr : Cell → String
  | .strV s => s
  | .intV n => toString n
  | .floatIntV n => toString n ++ ".0"

/-- Python's `int(...)` on a numeric cell: the integer itself, or the
integral value of a zero-fraction float (`int(5.0) = 5`). -/
def pyIntNum : NumCell → Int
  | .intV n => n
  | .floatIntV n => n

/-- A registrant row.  `sessionName` models an optional session-name
column; the required columns are the seven below. -/
structure Row where
  fullName : Cell
  dobDay : NumCell
  dobMonth : NumCell
  dobYear : NumCell
  phone : Cell
  email : Cell
  idNumber : Cell
  sessionName : Option String
deriving DecidableEq

/-- `build_payload` (src/main.py 210-223).  Python dicts preserve
insertion order, so the payload is an ordered association list. -/
def build_payload (id_ngay id_phien : String) (row : Row) (captcha_text : String) :
    List (String × String) :=
  [("Action", "DangKyThamDu"),
   ("idNgayBanHang", id_ngay),
   ("idPhien", id_phien),
   ("HoTen", pyStrip (pyStr row.fullName)),
   ("NgaySinh_Ngay", toString (pyIntNum row.dobDay)),
   ("NgaySinh_Thang", toString (pyIntNum row.dobMonth)),
   ("NgaySinh_Nam", toString (pyIntNum row.dobYear)),
   ("SoDienThoai", pyStrip (pyStr row.phone)),
   ("Email", pyStrip (pyStr row.email)),
   ("CCCD", pyStrip (pyStr row.idNumber)),
   ("Captcha", pyStrip captcha_text)]

/-- A session option `{"value": ..., "label": ...}` as returned by
`load_sessions_for_day`. -/
structure Session where
  value : String
  label : String
deriving DecidableEq

/-- Result of one external call: a value, or a raised exception. -/
inductive CallRes (α : Type)
  | ok (a : α)
  | exn
deriving DecidableEq

/-- The configuration knobs the captcha loop reads: `USE_2CAPTCHA` and
`CAPTCHA_MAX_TRIES` (default 4). -/
structure Config where
  use2captcha : Bool
  maxTries : Nat

/-- Oracle for one attempt of the captcha loop of one row: the outcomes
of `fetch_captcha_image_url`, `download_image`,
`solve_captcha_via_2captcha` (which catches its own exceptions and
returns `None` on timeout or error) and `submit_registration`. -/
structure AttemptOracle where
  fetchUrl : CallRes (Option String)
  download : CallRes String
  solverAnswer : Option String
  submitResp : CallRes String

/-- Trace events of one row's captcha loop: gateway calls tagged with the
1-based attempt number that makes them, plus the replies the loop sends. -/
inductive RowEvent
  | fetchCaptcha (attempt : Nat)
  | downloadImage (attempt : Nat)
  | submitReg (attempt : Nat) (payload : List (String × String))
  | successMsg (attempt : Nat)
  | sessionFullMsg (attempt : Nat)
  | pendingPut (attempt : Nat)
  | photoSent (attempt : Nat)
  | skipMsg (count : Nat)
deriving DecidableEq

/-- The attempt that produced an event (`skipMsg` is sent after the loop
and carries no attempt; it is assigned 0). -/
def attemptOf : RowEvent → Nat
  | .fetchCaptcha a => a
  | .downloadImage a => a
  | .submitReg a _ => a
  | .successMsg a => a
  | .sessionFullMsg a => a
  | .pendingPut a => a
  | .photoSent a => a
  | .skipMsg _ => 0

/-- How one row's `while attempt < CAPTCHA_MAX_TRIES` loop ended. -/
inductive LoopExit
  | successExit (attempt : Nat)
  | sessionFull (attempt : Nat)
  | noUrl (attempt : Nat)
  | otherFailure (attempt : Nat) (resp : String)
  | manualPending (attempt : Nat)
  | exhausted
deriving DecidableEq

/-- Is an event the skip report sent after the loop? -/
def isSkipEv : RowEvent → Bool
  | .skipMsg _ => true
  | _ => false

/-- Is an event a captcha-challenge request? -/
def isFetchEv : RowEvent → Bool
  | .fetchCaptcha _ => true
  | _ => false

/-- The events of one attempt, in trace order. -/
def attemptEvents (a : Nat) (tr : List RowEvent) : List RowEvent :=
  tr.filter (fun e => attemptOf e == a)

/-- The captcha attempt loop of `process_day` (src/main.py 300-360),
one row.  `attempt` is the Python `attempt` counter before the loop
condition is tested; `fuel` is spare iteration budget (the top-level call
passes `cfg.maxTries`, which dominates the loop guard, so the fuel never
runs out before the guard fails).  Each iteration: fetch a fresh captcha
challenge, download it, solve (automatically when `use2captcha`,
otherwise fall to the manual branch), submit, classify the raw response
by the source's `if/elif` chain.  Exceptions inside the `try` consume the
attempt and continue. -/
def runRowFuel (cfg : Config) (orc : Nat → AttemptOracle) (idNgay idPhien : String)
    (row : Row) : Nat → Nat → LoopExit × List RowEvent
  | 0, _ => (.exhausted, [])
  | fuel + 1, attempt =>
    if attempt < cfg.maxTries then
      let a := attempt + 1
      let o := orc a
      match o.fetchUrl with
      | .exn =>
        let r := runRowFuel cfg orc idNgay idPhien row fuel a
        (r.1, .fetchCaptcha a :: r.2)
      | .ok none => (.noUrl a, [.fetchCaptcha a])
      | .ok (some _) =>
        match o.download with
        | .exn =>
          let r := runRowFuel cfg orc idNgay idPhien row fuel a
          (r.1, .fetchCaptcha a :: .downloadImage a :: r.2)
        | .ok _ =>
          if cfg.use2captcha then
            match o.solverAnswer with
            | none =>
              let r := runRowFuel cfg orc idNgay idPhien row fuel a
              (r.1, .fetchCaptcha a :: .downloadImage a :: r.2)
            | some ans =>
              let pl := build_payload idNgay idPhien row ans
              match o.submitResp with
              | .exn =>
                let r := runRowFuel cfg orc idNgay idPhien row fuel a
                (r.1, .fetchCaptcha a :: .downloadImage a :: .submitReg a pl :: r.2)
              | .ok text =>
                if strContains text SUCCESS_MARKER then
                  (.successExit a,
                   [.fetchCaptcha a, .downloadImage a, .submitReg a pl, .successMsg a])
                else if is_session_full text then
                  (.sessionFull a,
                   [.fetchCaptcha a, .downloadImage a, .submitReg a pl, .sessionFullMsg a])
                else if strContains (pyLower text) "captcha" then
                  let r := runRowFuel cfg orc idNgay idPhien row fuel a
                  (r.1, .fetchCaptcha a :: .downloadImage a :: .submitReg a pl :: r.2)
                else
                  (.otherFailure a text,
                   [.fetchCaptcha a, .downloadImage a, .submitReg a pl])
          else
            (.manualPending a,
             [.fetchCaptcha a, .downloadImage a, .pendingPut a, .photoSent a])
    else (.exhausted, [])

/-- One row of `process_day`: the attempt loop followed by the post-loop
skip report `if not success and USE_2CAPTCHA` (src/main.py 362-365). -/
def runRow (cfg : Config) (orc : Nat → AttemptOracle) (idNgay idPhien : String)
    (row : Row) : LoopExit × List RowEvent :=
  let r := runRowFuel cfg orc idNgay idPhien row cfg.maxTries 0
  match r.1 with
  | .successExit _ => r
  | .sessionFull _ => r
  | _ => if cfg.use2captcha then (r.1, r.2 ++ [.skipMsg cfg.maxTries]) else r

/-- Trace events of one day's worker. -/
inductive DayEvent
  | dayErrorMsg
  | noDayIdMsg
  | noSessionsMsg
  | rowEv (idx : Nat) (e : RowEvent)
deriving DecidableEq

/-- Oracle for one day's worker: outcome of `get_main_page`, the day id
that `map_sales_date_to_id` resolves from the fetched page, the outcome
of `load_sessions_for_day`, and a per-row per-attempt oracle. -/
structure DayOracle where
  mainPage : CallRes Unit
  dayId : Option String
  sessions : CallRes (List Session)
  rowOrc : Nat → Nat → AttemptOracle

/-- The `for row in tasks` loop of `process_day`: rows strictly in order,
stopping immediately when a row's loop exits with the session-full
classification (the `return` at src/main.py 334). -/
def processRows (cfg : Config) (rowOrc : Nat → Nat → AttemptOracle)
    (idNgay idPhien : String) : List Row → Nat → List DayEvent
  | [], _ => []
  | row :: rest, idx =>
    let r := runRow cfg (rowOrc idx) idNgay idPhien row
    let evs := r.2.map (DayEvent.rowEv idx)
    match r.1 with
    | .sessionFull _ => evs
    | _ => evs ++ processRows cfg rowOrc idNgay idPhien rest (idx + 1)

/-- The anti-duplicate day registry: the sets `ACTIVE_DAYS` and
`COMPLETED_DAYS`, modelled by membership lists. -/
structure DayState where
  active : List String
  completed : List String
deriving DecidableEq

/-- Python `set.add`: insert if absent. -/
def setInsert (s : List String) (x : String) : List String :=
  if x ∈ s then s else x :: s

/-- Python `set.discard`: remove the element. -/
def setRemove (s : List String) (x : String) : List String :=
  s.filter (fun y => !(y == x))

/-- The claim step of `handle_excel` (src/main.py 267-273): under the
lock, skip every candidate already Active or Completed, mark the rest
Active, return them in original order. -/
def claimDays : DayState → List String → List String × DayState
  | st, [] => ([], st)
  | st, d :: rest =>
    if d ∈ st.active ∨ d ∈ st.completed then claimDays st rest
    else
      let st1 : DayState := { st with active := setInsert st.active d }
      let r := claimDays st1 rest
      (d :: r.1, r.2)

/-- The `finally` block of `process_day` (src/main.py 369-372): discard
the day from Active, add it to Completed. -/
def release (st : DayState) (day : String) : DayState :=
  { active := setRemove st.active day,
    completed := setInsert st.completed day }

/-- `process_day` for one claimed day (src/main.py 285-372): resolve the
day id, load the sessions, always take the first session, run the rows,
and in all cases (normal completion, early session-full return, reported
exception) run the `finally` release. -/
def processDay (cfg : Config) (orc : DayOracle) (day : String) (rows : List Row)
    (st : DayState) : List DayEvent × DayState :=
  let evs :=
    match orc.mainPage with
    | .exn => [DayEvent.dayErrorMsg]
    | .ok _ =>
      match orc.dayId with
      | none => [DayEvent.noDayIdMsg]
      | some idNgay =>
        match orc.sessions with
        | .exn => [DayEvent.dayErrorMsg]
        | .ok [] => [DayEvent.noSessionsMsg]
        | .ok (s0 :: _) => processRows cfg orc.rowOrc idNgay s0.value rows 0
  (evs, release st day)

/-- The trace one row contributes to the day trace. -/
def rowTrace (cfg : Config) (rowOrc : Nat → Nat → AttemptOracle)
    (idNgay idPhien : String) (idx : Nat) (row : Row) : List DayEvent :=
  (runRow cfg (rowOrc idx) idNgay idPhien row).2.map (DayEvent.rowEv idx)

/-- Concatenated traces of a list of rows processed unconditionally. -/
def rowsTraces (cfg : Config) (rowOrc : Nat → Nat → AttemptOracle)
    (idNgay idPhien : String) : List Row → Nat → List DayEvent
  | [], _ => []
  | row :: rest, idx =>
    rowTrace cfg rowOrc idNgay idPhien idx row
      ++ rowsTraces cfg rowOrc idNgay idPhien rest (idx + 1)

/-- Did the row's loop end with the session-full classification? -/
def isSessionFullExit : LoopExit → Bool
  | .sessionFull _ => true
  | _ => false

/-- A pending manual-captcha task (the value stored in
`PENDING_CAPTCHAS`; the live `client` field is omitted). -/
structure PendingTask where
  idNgay : String
  idPhien : String
  row : Row
deriving DecidableEq

/-- `PENDING_CAPTCHAS`: an insertion-ordered dict from string keys
`f"{chat_id}:{day}:{row_idx}"` to tasks. -/
abbrev PendingStore := List (String × PendingTask)

/-- The key under which `process_day` registers a manual task
(src/main.py 343). -/
def pendingKey (chatId : Int) (day : String) (rowIdx : Nat) : String :=
  toString chatId ++ ":" ++ day ++ ":" ++ toString rowIdx

/-- The per-channel key prefix `f"{chat_id}:"` that `handle_text`
matches with `startswith` (src/main.py 396). -/
def chatPrefixStr (chatId : Int) : String := toString chatId ++ ":"

/-- Dict assignment `PENDING_CAPTCHAS[key] = task`: replace in place or
append. -/
def storePut (st : PendingStore) (k : String) (t : PendingTask) : PendingStore :=
  if st.any (fun p => p.1 == k) then
    st.map (fun p => if p.1 == k then (k, t) else p)
  else st ++ [(k, t)]

/-- The key scan of `handle_text`: first key (in insertion order) whose
string starts with `f"{chat_id}:"`. -/
def findChannelKey (st : PendingStore) (chatId : Int) : Option String :=
  (st.find? (fun p => strStartsWith p.1 (chatPrefixStr chatId))).map (fun p => p.1)

/-- `PENDING_CAPTCHAS.pop(key, None)`. -/
def storePop (st : PendingStore) (k : String) : Option PendingTask × PendingStore :=
  match st.find? (fun p => p.1 == k) with
  | some p => (some p.2, st.filter (fun q => !(q.1 == k)))
  | none => (none, st)

/-- The reply `handle_text` produces. -/
inductive TextOutcome
  | silent
  | noTaskMsg
  | successMsg
  | sessionFullMsg
  | wrongCaptchaMsg
  | otherFailMsg (resp : String)
  | errorMsg
deriving DecidableEq

/-- Body of `handle_text` after the admin gate (src/main.py 388-428):
require a text message, find a pending key for the chat (silently return
when there is none), pop it, submit the registration with the
human-supplied captcha text and classify the response by the same
`if/elif` chain as the automatic loop. -/
def handleTextBody (st : PendingStore) (chatId : Int) (text : Option String)
    (submitResp : List (String × String) → CallRes String) :
    TextOutcome × PendingStore :=
  match text with
  | none => (.silent, st)
  | some rawText =>
    match findChannelKey st chatId with
    | none => (.silent, st)
    | some key =>
      let p := storePop st key
      match p.1 with
      | none => (.noTaskMsg, p.2)
      | some data =>
        match submitResp (build_payload data.idNgay data.idPhien data.row (pyStrip rawText)) with
        | .exn => (.errorMsg, p.2)
        | .ok result =>
          if strContains result SUCCESS_MARKER then (.successMsg, p.2)
          else if is_session_full result then (.sessionFullMsg, p.2)
          else if strContains (pyLower result) "captcha" then (.wrongCaptchaMsg, p.2)
          else (.otherFailMsg result, p.2)

/-- `handle_text` (src/main.py 384-428). -/
def handle_text (admins : List String) (uid : Int) (st : PendingStore) (chatId : Int)
    (text : Option String) (submitResp : List (String × String) → CallRes String) :
    TextOutcome × PendingStore :=
  if is_admin admins uid then handleTextBody st chatId text submitResp
  else (.silent, st)

/-- The reply of the `start` command handler. -/
inductive StartReply
  | usage
deriving DecidableEq

/-- `start` (src/main.py 226-232): admin gate, then the usage message. -/
def start (admins : List String) (uid : Int) : List StartReply :=
  if is_admin admins uid then [.usage] else []

/-- The required spreadsheet columns (src/main.py 246). -/
def requiredCols : List String :=
  ["FullName", "DOB_Day", "DOB_Month", "DOB_Year", "Phone", "Email", "IDNumber"]

/-- Python's `list(dict.fromkeys(l))`: dedup keeping first occurrences. -/
def dedupFirstAux (seen : List String) : List String → List String
  | [] => []
  | d :: rest =>
    if d ∈ seen then dedupFirstAux seen rest
    else d :: dedupFirstAux (d :: seen) rest

/-- Dedup keeping the first occurrence of each element, in order. -/
def dedupFirst (l : List String) : List String := dedupFirstAux [] l

/-- The reply of `handle_excel` up to launching the day tasks. -/
inductive ExcelResult
  | silent
  | askXlsx
  | missingColumn (c : String)
  | noSalesDates
  | noNewDays
  | launched (days : List String)
deriving DecidableEq

/-- Body of `handle_excel` after the admin gate (src/main.py 239-283):
require a `.xlsx` document, check the required columns, extract the sale
days (supplied by an oracle, the HTML scraping being external), dedup
them keeping order, run the claim step, and launch one task per claimed
day. -/
def handleExcelBody (st : DayState) (fileName : Option String)
    (columns : List String) (allDays : List String) : ExcelResult × DayState :=
  match fileName with
  | none => (.askXlsx, st)
  | some fn =>
    if !(strEndsWith (pyLower fn) ".xlsx") then (.askXlsx, st)
    else
      match requiredCols.find? (fun c => !(columns.contains c)) with
      | some c => (.missingColumn c, st)
      | none =>
        if allDays.isEmpty then (.noSalesDates, st)
        else
          let r := claimDays st (dedupFirst allDays)
          if r.1.isEmpty then (.noNewDays, r.2)
          else (.launched r.1, r.2)

/-- `handle_excel` (src/main.py 235-381), up to task launch. -/
def handle_excel (admins : List String) (uid : Int) (st : DayState)
    (fileName : Option String) (columns : List String) (allDays : List String) :
    ExcelResult × DayState :=
  if is_admin admins uid then handleExcelBody st fileName columns allDays
  else (.silent, st)

/-- Modelled from the spec: the session-selection rule claim C8 states
(match a row's session name by exact label equality, else first session).
The source (src/main.py 298) has no such matching; this definition exists
only to compare the claim against the code's behaviour. -/
def specSelectSession (sessions : List Session) (row : Row) : Option Session :=
  match row.sessionName with
  | some name =>
    match sessions.find? (fun s => s.label == name) with
    | some s => some s
    | none => sessions.head?
  | none => sessions.head?

/-- Automatic-mode configuration for concrete runs: `USE_2CAPTCHA=1` and
the default `CAPTCHA_MAX_TRIES=4`. -/
def cfgAuto : Config := ⟨true, 4⟩

/-- A concrete registrant row whose day-of-birth cell is the float `5.0`. -/
def rowA : Row :=
  { fullName := .strV "Nguyen Van A", dobDay := .floatIntV 5, dobMonth := .intV 12,
    dobYear := .intV 1990, phone := .strV "0900000000", email := .strV "a@b.c",
    idNumber := .strV "012345678", sessionName := none }

/-- A concrete row that names session "B". -/
def rowB : Row := { rowA with sessionName := some "B" }

/-- Attempt oracle: every call succeeds and the submission response
carries the success marker. -/
def okAttempt : AttemptOracle :=
  { fetchUrl := .ok (some "u"), download := .ok "img", solverAnswer := some "ans",
    submitResp := .ok "!!!True|~~|saved" }

/-- Attempt oracle: the submission response is a session-full phrase. -/
def fullAttempt : AttemptOracle :=
  { fetchUrl := .ok (some "u"), download := .ok "img", solverAnswer := some "ans",
    submitResp := .ok "Sorry, this session is full." }

/-- Attempt oracle: the solver yields no answer (timeout). -/
def timeoutAttempt : AttemptOracle :=
  { fetchUrl := .ok (some "u"), download := .ok "img", solverAnswer := none,
    submitResp := .exn }

/-- Day oracle with two sessions labelled "A" and "B"; every row
succeeds on its first attempt. -/
def orcAB : DayOracle :=
  { mainPage := .ok (), dayId := some "NG1",
    sessions := .ok [⟨"1", "A"⟩, ⟨"2", "B"⟩],
    rowOrc := fun _ _ => okAttempt }

/-- Day oracle where row 0 receives the session-full response and any
later row would succeed. -/
def orcFullFirst : DayOracle :=
  { mainPage := .ok (), dayId := some "NG1", sessions := .ok [⟨"1", "A"⟩],
    rowOrc := fun i _ => if i = 0 then fullAttempt else okAttempt }

/-- A concrete pending manual-captcha task. -/
def taskA : PendingTask := ⟨"NG1", "1", rowA⟩

/-- A pending store holding one task registered under chat 5, row 0. -/
def storeA : PendingStore := [(pendingKey 5 "24/12/2024" 0, taskA)]

/-!  Theorems.  First, facts about decimal rendering of integers, needed
for the channel-prefix discipline of the pending-captcha keys. -/

theorem digitChar_isDigit (m : Nat) (h : m < 10) : (Nat.digitChar m).isDigit = true := by
  interval_cases m <;> decide

theorem digVal_digitChar (m : Nat) (h : m < 10) : digVal (Nat.digitChar m) = m := by
  interval_cases m <;> decide

theorem natDigits_lt (n : Nat) (h : n < 10) : natDigits n = [Nat.digitChar n] := by
  rw [natDigits]
  simp [h]

theorem natDigits_ge (n : Nat) (h : ¬ n < 10) :
    natDigits n = natDigits (n / 10) ++ [Nat.digitChar (n % 10)] := by
  rw [natDigits]
  simp [h]

theorem mem_natDigits_isDigit (n : Nat) : ∀ c ∈ natDigits n, c.isDigit = true := by
  induction n using Nat.strong_induction_on with
  | _ n ih =>
    by_cases h : n < 10
    · rw [natDigits_lt n h]
      intro c hc
      rw [List.mem_singleton] at hc
      subst hc
      exact digitChar_isDigit n h
    · rw [natDigits_ge n h]
      intro c hc
      rcases List.mem_append.mp hc with h1 | h1
      · exact ih (n / 10) (Nat.div_lt_self (by omega) (by omega)) c h1
      · rw [List.mem_singleton] at h1
        subst h1
        exact digitChar_isDigit _ (Nat.mod_lt _ (by omega))

theorem natDigits_ne_nil (n : Nat) : natDigits n ≠ [] := by
  by_cases h : n < 10
  · rw [natDigits_lt n h]; simp
  · rw [natDigits_ge n h]; simp

theorem decodeDigits_append_single (l : List Char) (c : Char) :
    decodeDigits (l ++ [c]) = decodeDigits l * 10 + digVal c := by
  unfold decodeDigits
  rw [List.foldl_append]
  rfl

theorem decode_natDigits (n : Nat) : decodeDigits (natDigits n) = n := by
  induction n using Nat.strong_induction_on with
  | _ n ih =>
    by_cases h : n < 10
    · rw [natDigits_lt n h]
      show decodeDigits ([] ++ [Nat.digitChar n]) = n
      rw [decodeDigits_append_single, digVal_digitChar n h]
      simp [decodeDigits]
    · rw [natDigits_ge n h, decodeDigits_append_single,
        ih (n / 10) (Nat.div_lt_self (by omega) (by omega)),
        digVal_digitChar _ (Nat.mod_lt _ (by omega))]
      omega

theorem natDigits_inj (m n : Nat) (h : natDigits m = natDigits n) : m = n := by
  rw [← decode_natDigits m, ← decode_natDigits n, h]

theorem toDigitsCore_eq_natDigits (fuel : Nat) : ∀ n ds, n < fuel →
    Nat.toDigitsCore 10 fuel n ds = natDigits n ++ ds := by
  induction fuel with
  | zero => intro n ds h; omega
  | succ fuel ih =>
    intro n ds h
    unfold Nat.toDigitsCore
    by_cases h10 : n / 10 = 0
    · have hn : n < 10 := by omega
      simp only [h10, if_true, reduceIte]
      rw [natDigits_lt n hn, Nat.mod_eq_of_lt hn]
      rfl
    · have hge : ¬ n < 10 := by omega
      simp only [h10, if_false, reduceIte]
      rw [ih (n / 10) _ (by omega), natDigits_ge n hge]
      simp

theorem natRepr_data (n : Nat) : (Nat.repr n).data = natDigits n := by
  show (Nat.toDigits 10 n).asString.data = natDigits n
  unfold Nat.toDigits
  rw [toDigitsCore_eq_natDigits (n + 1) n [] (by omega)]
  simp [List.asString]

theorem intChars_ofNat (m : Nat) : intChars (Int.ofNat m) = natDigits m := by
  show (toString (Int.ofNat m)).data = natDigits m
  rw [show toString (Int.ofNat m) = Nat.repr m from rfl, natRepr_data]

theorem intChars_negSucc (m : Nat) : intChars (Int.negSucc m) = '-' :: natDigits (m + 1) := by
  show (toString (Int.negSucc m)).data = '-' :: natDigits (m + 1)
  rw [show toString (Int.negSucc m) = "-" ++ Nat.repr (m + 1) from rfl]
  rw [String.data_append, natRepr_data]
  rfl

theorem intChars_no_colon (i : Int) : ∀ c ∈ intChars i, c ≠ ':' := by
  cases i with
  | ofNat m =>
    rw [intChars_ofNat]
    intro c hc h
    subst h
    have := mem_natDigits_isDigit m _ hc
    simp at this
  | negSucc m =>
    rw [intChars_negSucc]
    intro c hc h
    subst h
    rcases List.mem_cons.mp hc with h1 | h1
    · simp at h1
    · have := mem_natDigits_isDigit (m + 1) _ h1
      simp at this

theorem intChars_inj (a b : Int) (h : intChars a = intChars b) : a = b := by
  cases a with
  | ofNat m =>
    cases b with
    | ofNat n =>
      rw [intChars_ofNat, intChars_ofNat] at h
      exact congrArg Int.ofNat (natDigits_inj m n h)
    | negSucc n =>
      rw [intChars_ofNat, intChars_negSucc] at h
      have hd : '-' ∈ natDigits m := by rw [h]; exact List.mem_cons_self _ _
      have := mem_natDigits_isDigit m _ hd
      simp at this
  | negSucc m =>
    cases b with
    | ofNat n =>
      rw [intChars_negSucc, intChars_ofNat] at h
      have hd : '-' ∈ natDigits n := by rw [← h]; exact List.mem_cons_self _ _
      have := mem_natDigits_isDigit n _ hd
      simp at this
    | negSucc n =>
      rw [intChars_negSucc, intChars_negSucc] at h
      have := (List.cons.injEq _ _ _ _).mp h
      have hmn := natDigits_inj (m + 1) (n + 1) this.2
      exact congrArg Int.negSucc (by omega)

theorem colon_prefix_eq : ∀ (A B R : List Char),
    (∀ c ∈ A, c ≠ ':') → (∀ c ∈ B, c ≠ ':') →
    (A ++ [':']) <+: (B ++ ':' :: R) → A = B := by
  intro A
  induction A with
  | nil =>
    intro B R _ hB h
    cases B with
    | nil => rfl
    | cons b B' =>
      rw [List.nil_append, List.cons_append] at h
      have := (List.cons_prefix_cons.mp h).1
      exact absurd this.symm (hB b (List.mem_cons_self _ _))
  | cons a A' ih =>
    intro B R hA hB h
    cases B with
    | nil =>
      rw [List.cons_append, List.nil_append] at h
      have := (List.cons_prefix_cons.mp h).1
      exact absurd this (hA a (List.mem_cons_self _ _))
    | cons b B' =>
      rw [List.cons_append, List.cons_append] at h
      have h' := List.cons_prefix_cons.mp h
      have hab : a = b := h'.1
      have htl : A' = B' :=
        ih B' R (fun c hc => hA c (List.mem_cons_of_mem _ hc))
          (fun c hc => hB c (List.mem_cons_of_mem _ hc)) h'.2
      rw [hab, htl]

theorem chatPrefix_pendingKey (c c' : Int) (day : String) (idx : Nat)
    (h : strStartsWith (pendingKey c' day idx) (chatPrefixStr c) = true) : c = c' := by
  unfold strStartsWith chatPrefixStr pendingKey at h
  rw [List.isPrefixOf_iff_prefix] at h
  simp only [String.data_append] at h
  have hshape :
      (toString c').data ++ [':'] ++ day.data ++ [':'] ++ (toString idx).data
        = (toString c').data ++ ':' :: (day.data ++ ':' :: (toString idx).data) := by
    simp
  rw [hshape] at h
  exact intChars_inj c c'
    (colon_prefix_eq (intChars c) (intChars c') _ (intChars_no_colon c)
      (intChars_no_colon c') h)

/-!  Day-registry lemmas: the claim step and the release step. -/

theorem mem_setInsert (s : List String) (x d : String) :
    d ∈ setInsert s x ↔ d = x ∨ d ∈ s := by
  unfold setInsert
  by_cases hx : x ∈ s
  · simp only [if_pos hx]
    constructor
    · exact Or.inr
    · rintro (rfl | h)
      · exact hx
      · exact h
  · simp only [if_neg hx]
    exact List.mem_cons

theorem mem_setRemove (s : List String) (x d : String) :
    d ∈ setRemove s x ↔ d ∈ s ∧ d ≠ x := by
  unfold setRemove
  rw [List.mem_filter]
  simp

theorem claimDays_completed (st : DayState) (cands : List String) :
    (claimDays st cands).2.completed = st.completed := by
  induction cands generalizing st with
  | nil => rfl
  | cons d rest ih =>
    simp only [claimDays]
    split
    · exact ih st
    · exact ih _

theorem claimDays_active_mono (st : DayState) (cands : List String) (d : String)
    (hd : d ∈ st.active) : d ∈ (claimDays st cands).2.active := by
  induction cands generalizing st with
  | nil => exact hd
  | cons c rest ih =>
    simp only [claimDays]
    split
    · exact ih st hd
    · exact ih _ ((mem_setInsert _ _ _).mpr (Or.inr hd))

theorem claimDays_out_active (st : DayState) (cands : List String) :
    ∀ d ∈ (claimDays st cands).1, d ∈ (claimDays st cands).2.active := by
  induction cands generalizing st with
  | nil => intro d hd; simp [claimDays] at hd
  | cons c rest ih =>
    simp only [claimDays]
    split
    · exact ih st
    · intro d hd
      rcases List.mem_cons.mp hd with rfl | hd'
      · exact claimDays_active_mono _ rest d ((mem_setInsert _ _ _).mpr (Or.inl rfl))
      · exact ih _ d hd'

theorem claimDays_out_fresh (st : DayState) (cands : List String) (d : String)
    (hd : d ∈ st.active ∨ d ∈ st.completed) : d ∉ (claimDays st cands).1 := by
  induction cands generalizing st with
  | nil => simp [claimDays]
  | cons c rest ih =>
    simp only [claimDays]
    split
    · exact ih st hd
    · rename_i hfree
      intro hmem
      rcases List.mem_cons.mp hmem with rfl | hmem'
      · exact hfree hd
      · refine ih ⟨setInsert st.active c, st.completed⟩ ?_ hmem'
        rcases hd with h | h
        · exact Or.inl ((mem_setInsert _ _ _).mpr (Or.inr h))
        · exact Or.inr h

theorem claimDays_sublist (st : DayState) (cands : List String) :
    (claimDays st cands).1.Sublist cands := by
  induction cands generalizing st with
  | nil => simp [claimDays]
  | cons c rest ih =>
    simp only [claimDays]
    split
    · exact (ih st).cons c
    · exact List.Sublist.cons₂ c (ih _)

theorem claimDays_complete (st : DayState) (cands : List String) (d : String)
    (hc : d ∈ cands) (ha : d ∉ st.active) (hco : d ∉ st.completed) :
    d ∈ (claimDays st cands).1 := by
  induction cands generalizing st with
  | nil => simp at hc
  | cons c rest ih =>
    simp only [claimDays]
    split
    · rename_i hbusy
      rcases List.mem_cons.mp hc with rfl | hc'
      · rcases hbusy with h | h
        · exact absurd h ha
        · exact absurd h hco
      · exact ih st hc' ha hco
    · by_cases hdc : d = c
      · subst hdc
        exact List.mem_cons_self _ _
      · have hc' : d ∈ rest := by
          rcases List.mem_cons.mp hc with h | h
          · exact absurd h hdc
          · exact h
        refine List.mem_cons_of_mem _ (ih _ hc' ?_ hco)
        intro hmm
        rcases (mem_setInsert _ _ _).mp hmm with h | h
        · exact hdc h
        · exact ha h

theorem claimDays_covers (st : DayState) (cands : List String) :
    ∀ d ∈ cands, d ∈ (claimDays st cands).2.active ∨ d ∈ (claimDays st cands).2.completed := by
  induction cands generalizing st with
  | nil => simp
  | cons c rest ih =>
    intro d hd
    simp only [claimDays]
    split
    · rcases List.mem_cons.mp hd with rfl | hd'
      · rename_i hbusy
        rcases hbusy with h | h
        · exact Or.inl (claimDays_active_mono st rest d h)
        · right
          rw [claimDays_completed]
          exact h
      · exact ih st d hd'
    · rcases List.mem_cons.mp hd with rfl | hd'
      · exact Or.inl (claimDays_active_mono _ rest d ((mem_setInsert _ _ _).mpr (Or.inl rfl)))
      · exact ih _ d hd'

theorem claimDays_all_busy (st : DayState) (cands : List String)
    (h : ∀ d ∈ cands, d ∈ st.active ∨ d ∈ st.completed) :
    (claimDays st cands).1 = [] := by
  induction cands generalizing st with
  | nil => rfl
  | cons c rest ih =>
    simp only [claimDays]
    split
    · exact ih st (fun d hd => h d (List.mem_cons_of_mem _ hd))
    · rename_i hfree
      exact absurd (h c (List.mem_cons_self _ _)) hfree

/-- Claim C2: the claim step removes every candidate already Active or
Completed, marks the returned labels Active, returns them in their
original order (a sublist of the candidates), returns every fresh
candidate, and a second run with identical candidates and no intervening
release returns nothing. -/
theorem C2_claim_step (st : DayState) (cands : List String) :
    (∀ d, (d ∈ st.active ∨ d ∈ st.completed) → d ∉ (claimDays st cands).1)
    ∧ (∀ d ∈ (claimDays st cands).1, d ∈ (claimDays st cands).2.active)
    ∧ (claimDays st cands).1.Sublist cands
    ∧ (∀ d ∈ cands, d ∉ st.active → d ∉ st.completed → d ∈ (claimDays st cands).1)
    ∧ (claimDays (claimDays st cands).2 cands).1 = [] :=
  ⟨fun d hd => claimDays_out_fresh st cands d hd,
   claimDays_out_active st cands,
   claimDays_sublist st cands,
   fun d hd ha hc => claimDays_complete st cands d hd ha hc,
   claimDays_all_busy _ cands (claimDays_covers st cands)⟩

/-- Claim C2 witness: with "24/12/2024" already Active and "25/12/2024"
fresh, one run claims exactly the fresh day and a second run claims
nothing. -/
theorem C2_claim_step_witness :
    "25/12/2024" ∈ (claimDays ⟨["24/12/2024"], []⟩ ["24/12/2024", "25/12/2024"]).1
    ∧ "24/12/2024" ∉ (claimDays ⟨["24/12/2024"], []⟩ ["24/12/2024", "25/12/2024"]).1
    ∧ (claimDays (claimDays ⟨["24/12/2024"], []⟩ ["24/12/2024", "25/12/2024"]).2
        ["24/12/2024", "25/12/2024"]).1 = [] :=
  ⟨(C2_claim_step ⟨["24/12/2024"], []⟩ ["24/12/2024", "25/12/2024"]).2.2.2.1
      "25/12/2024" (by decide) (by decide) (by decide),
   (C2_claim_step ⟨["24/12/2024"], []⟩ ["24/12/2024", "25/12/2024"]).1
      "24/12/2024" (Or.inl (by decide)),
   (C2_claim_step ⟨["24/12/2024"], []⟩ ["24/12/2024", "25/12/2024"]).2.2.2.2⟩

/-- Claim C3: whatever path `process_day` takes (normal completion, early
session-full return, resolution failure, or reported exception), the
`finally` block releases the day exactly once: the final registry state
is `release st day`, in which the day is not Active and is Completed, and
a Completed day is never returned by any later claim step. -/
theorem C3_release_on_all_paths (cfg : Config) (orc : DayOracle) (day : String)
    (rows : List Row) (st : DayState) :
    (processDay cfg orc day rows st).2 = release st day
    ∧ day ∉ (processDay cfg orc day rows st).2.active
    ∧ day ∈ (processDay cfg orc day rows st).2.completed
    ∧ (∀ st2 cands, day ∈ st2.completed → day ∉ (claimDays st2 cands).1) := by
  refine ⟨rfl, ?_, ?_, ?_⟩
  · show day ∉ (release st day).active
    intro h
    exact ((mem_setRemove _ _ _).mp h).2 rfl
  · show day ∈ (release st day).completed
    exact (mem_setInsert _ _ _).mpr (Or.inl rfl)
  · intro st2 cands h
    exact claimDays_out_fresh st2 cands day (Or.inr h)

/-- Claim C3 witness: a concrete day run releases "24/12/2024" into the
Completed set and a later claim over it returns nothing. -/
theorem C3_release_witness :
    "24/12/2024" ∈
      (processDay cfgAuto orcAB "24/12/2024" [rowA] ⟨["24/12/2024"], []⟩).2.completed
    ∧ "24/12/2024" ∉
      (claimDays (processDay cfgAuto orcAB "24/12/2024" [rowA] ⟨["24/12/2024"], []⟩).2
        ["24/12/2024"]).1 :=
  ⟨(C3_release_on_all_paths cfgAuto orcAB "24/12/2024" [rowA] ⟨["24/12/2024"], []⟩).2.2.1,
   (C3_release_on_all_paths cfgAuto orcAB "24/12/2024" [rowA] ⟨["24/12/2024"], []⟩).2.2.2
     _ ["24/12/2024"]
     (C3_release_on_all_paths cfgAuto orcAB "24/12/2024" [rowA] ⟨["24/12/2024"], []⟩).2.2.1⟩

/-!  Structure of the captcha attempt loop.  One guarded iteration emits
a block of events of the current attempt, beginning with a fresh captcha
request, and either terminates or continues with the next attempt. -/

theorem head?_mem {α : Type} {l : List α} {x : α} (h : l.head? = some x) : x ∈ l := by
  cases l with
  | nil => simp at h
  | cons b t =>
    have hb : b = x := by simpa using h
    rw [← hb]
    exact List.mem_cons_self _ _

theorem runRowFuel_cases (cfg : Config) (orc : Nat → AttemptOracle) (idNgay idPhien : String)
    (row : Row) (fuel attempt : Nat) (hg : attempt < cfg.maxTries) :
    ∃ blk : List RowEvent,
      (∀ e ∈ blk, attemptOf e = attempt + 1 ∧ isSkipEv e = false)
      ∧ blk.head? = some (.fetchCaptcha (attempt + 1))
      ∧ blk.filter isFetchEv = [.fetchCaptcha (attempt + 1)]
      ∧ (∀ a pl, RowEvent.submitReg a pl ∈ blk →
          ∃ ans, (orc (attempt + 1)).solverAnswer = some ans
            ∧ a = attempt + 1
            ∧ pl = build_payload idNgay idPhien row ans
            ∧ RowEvent.fetchCaptcha (attempt + 1) ∈ blk
            ∧ RowEvent.downloadImage (attempt + 1) ∈ blk)
      ∧ ((runRowFuel cfg orc idNgay idPhien row (fuel + 1) attempt).2 = blk
          ∨ ((runRowFuel cfg orc idNgay idPhien row (fuel + 1) attempt).2
              = blk ++ (runRowFuel cfg orc idNgay idPhien row fuel (attempt + 1)).2
            ∧ (runRowFuel cfg orc idNgay idPhien row (fuel + 1) attempt).1
              = (runRowFuel cfg orc idNgay idPhien row fuel (attempt + 1)).1)) := by
  cases hF : (orc (attempt + 1)).fetchUrl with
  | exn =>
    refine ⟨[.fetchCaptcha (attempt + 1)], ?_, rfl, rfl, ?_, Or.inr ⟨?_, ?_⟩⟩
    · intro e he
      fin_cases he
      exact ⟨rfl, rfl⟩
    · intro a pl h
      simp at h
    · simp [runRowFuel, hg, hF]
    · simp [runRowFuel, hg, hF]
  | ok uo =>
    cases uo with
    | none =>
      refine ⟨[.fetchCaptcha (attempt + 1)], ?_, rfl, rfl, ?_, Or.inl ?_⟩
      · intro e he
        fin_cases he
        exact ⟨rfl, rfl⟩
      · intro a pl h
        simp at h
      · simp [runRowFuel, hg, hF]
    | some u =>
      cases hD : (orc (attempt + 1)).download with
      | exn =>
        refine ⟨[.fetchCaptcha (attempt + 1), .downloadImage (attempt + 1)],
          ?_, rfl, rfl, ?_, Or.inr ⟨?_, ?_⟩⟩
        · intro e he
          fin_cases he <;> exact ⟨rfl, rfl⟩
        · intro a pl h
          simp at h
        · simp [runRowFuel, hg, hF, hD]
        · simp [runRowFuel, hg, hF, hD]
      | ok img =>
        cases hU : cfg.use2captcha with
        | false =>
          refine ⟨[.fetchCaptcha (attempt + 1), .downloadImage (attempt + 1),
              .pendingPut (attempt + 1), .photoSent (attempt + 1)],
            ?_, rfl, rfl, ?_, Or.inl ?_⟩
          · intro e he
            fin_cases he <;> exact ⟨rfl, rfl⟩
          · intro a pl h
            simp at h
          · simp [runRowFuel, hg, hF, hD, hU]
        | true =>
          cases hS : (orc (attempt + 1)).solverAnswer with
          | none =>
            refine ⟨[.fetchCaptcha (attempt + 1), .downloadImage (attempt + 1)],
              ?_, rfl, rfl, ?_, Or.inr ⟨?_, ?_⟩⟩
            · intro e he
              fin_cases he <;> exact ⟨rfl, rfl⟩
            · intro a pl h
              simp at h
            · simp [runRowFuel, hg, hF, hD, hU, hS]
            · simp [runRowFuel, hg, hF, hD, hU, hS]
          | some ans =>
            cases hR : (orc (attempt + 1)).submitResp with
            | exn =>
              refine ⟨[.fetchCaptcha (attempt + 1), .downloadImage (attempt + 1),
                  .submitReg (attempt + 1) (build_payload idNgay idPhien row ans)],
                ?_, rfl, rfl, ?_, Or.inr ⟨?_, ?_⟩⟩
              · intro e he
                fin_cases he <;> exact ⟨rfl, rfl⟩
              · intro a pl h
                simp only [List.mem_cons, List.not_mem_nil, or_false] at h
                rcases h with h | h | h
                · exact absurd h (by simp)
                · exact absurd h (by simp)
                · obtain ⟨rfl, rfl⟩ := by simpa using h
                  exact ⟨ans, rfl, rfl, rfl, by simp, by simp⟩
              · simp [runRowFuel, hg, hF, hD, hU, hS, hR]
              · simp [runRowFuel, hg, hF, hD, hU, hS, hR]
            | ok text =>
              cases h1 : strContains text SUCCESS_MARKER with
              | true =>
                refine ⟨[.fetchCaptcha (attempt + 1), .downloadImage (attempt + 1),
                    .submitReg (attempt + 1) (build_payload idNgay idPhien row ans),
                    .successMsg (attempt + 1)],
                  ?_, rfl, rfl, ?_, Or.inl ?_⟩
                · intro e he
                  fin_cases he <;> exact ⟨rfl, rfl⟩
                · intro a pl h
                  simp only [List.mem_cons, List.not_mem_nil, or_false] at h
                  rcases h with h | h | h | h
                  · exact absurd h (by simp)
                  · exact absurd h (by simp)
                  · obtain ⟨rfl, rfl⟩ := by simpa using h
                    exact ⟨ans, rfl, rfl, rfl, by simp, by simp⟩
                  · exact absurd h (by simp)
                · simp [runRowFuel, hg, hF, hD, hU, hS, hR, h1]
              | false =>
                cases h2 : is_session_full text with
                | true =>
                  refine ⟨[.fetchCaptcha (attempt + 1), .downloadImage (attempt + 1),
                      .submitReg (attempt + 1) (build_payload idNgay idPhien row ans),
                      .sessionFullMsg (attempt + 1)],
                    ?_, rfl, rfl, ?_, Or.inl ?_⟩
                  · intro e he
                    fin_cases he <;> exact ⟨rfl, rfl⟩
                  · intro a pl h
                    simp only [List.mem_cons, List.not_mem_nil, or_false] at h
                    rcases h with h | h | h | h
                    · exact absurd h (by simp)
                    · exact absurd h (by simp)
                    · obtain ⟨rfl, rfl⟩ := by simpa using h
                      exact ⟨ans, rfl, rfl, rfl, by simp, by simp⟩
                    · exact absurd h (by simp)
                  · simp [runRowFuel, hg, hF, hD, hU, hS, hR, h1, h2]
                | false =>
                  cases h3 : strContains (pyLower text) "captcha" with
                  | true =>
                    refine ⟨[.fetchCaptcha (attempt + 1), .downloadImage (attempt + 1),
                        .submitReg (attempt + 1) (build_payload idNgay idPhien row ans)],
                      ?_, rfl, rfl, ?_, Or.inr ⟨?_, ?_⟩⟩
                    · intro e he
                      fin_cases he <;> exact ⟨rfl, rfl⟩
                    · intro a pl h
                      simp only [List.mem_cons, List.not_mem_nil, or_false] at h
                      rcases h with h | h | h
                      · exact absurd h (by simp)
                      · exact absurd h (by simp)
                      · obtain ⟨rfl, rfl⟩ := by simpa using h
                        exact ⟨ans, rfl, rfl, rfl, by simp, by simp⟩
                    · simp [runRowFuel, hg, hF, hD, hU, hS, hR, h1, h2, h3]
                    · simp [runRowFuel, hg, hF, hD, hU, hS, hR, h1, h2, h3]
                  | false =>
                    refine ⟨[.fetchCaptcha (attempt + 1), .downloadImage (attempt + 1),
                        .submitReg (attempt + 1) (build_payload idNgay idPhien row ans)],
                      ?_, rfl, rfl, ?_, Or.inl ?_⟩
                    · intro e he
                      fin_cases he <;> exact ⟨rfl, rfl⟩
                    · intro a pl h
                      simp only [List.mem_cons, List.not_mem_nil, or_false] at h
                      rcases h with h | h | h
                      · exact absurd h (by simp)
                      · exact absurd h (by simp)
                      · obtain ⟨rfl, rfl⟩ := by simpa using h
                        exact ⟨ans, rfl, rfl, rfl, by simp, by simp⟩
                    · simp [runRowFuel, hg, hF, hD, hU, hS, hR, h1, h2, h3]

theorem runRowFuel_mem (cfg : Config) (orc : Nat → AttemptOracle) (idNgay idPhien : String)
    (row : Row) : ∀ fuel attempt, ∀ e ∈ (runRowFuel cfg orc idNgay idPhien row fuel attempt).2,
      attempt < attemptOf e ∧ attemptOf e ≤ cfg.maxTries ∧ isSkipEv e = false := by
  intro fuel
  induction fuel with
  | zero => intro attempt e he; simp [runRowFuel] at he
  | succ fuel ih =>
    intro attempt e he
    by_cases hg : attempt < cfg.maxTries
    · obtain ⟨blk, hP1, _, _, _, hP5⟩ :=
        runRowFuel_cases cfg orc idNgay idPhien row fuel attempt hg
      rcases hP5 with h | ⟨h, _⟩
      · rw [h] at he
        obtain ⟨ha, hs⟩ := hP1 e he
        exact ⟨by omega, by omega, hs⟩
      · rw [h] at he
        rcases List.mem_append.mp he with hb | hr
        · obtain ⟨ha, hs⟩ := hP1 e hb
          exact ⟨by omega, by omega, hs⟩
        · obtain ⟨h1, h2, h3⟩ := ih (attempt + 1) e hr
          exact ⟨by omega, h2, h3⟩
    · simp [runRowFuel, hg] at he

theorem runRowFuel_submit (cfg : Config) (orc : Nat → AttemptOracle) (idNgay idPhien : String)
    (row : Row) : ∀ fuel attempt a pl,
      RowEvent.submitReg a pl ∈ (runRowFuel cfg orc idNgay idPhien row fuel attempt).2 →
      ∃ ans, (orc a).solverAnswer = some ans
        ∧ pl = build_payload idNgay idPhien row ans
        ∧ RowEvent.fetchCaptcha a ∈ (runRowFuel cfg orc idNgay idPhien row fuel attempt).2
        ∧ RowEvent.downloadImage a ∈ (runRowFuel cfg orc idNgay idPhien row fuel attempt).2 := by
  intro fuel
  induction fuel with
  | zero => intro attempt a pl h; simp [runRowFuel] at h
  | succ fuel ih =>
    intro attempt a pl h
    by_cases hg : attempt < cfg.maxTries
    · obtain ⟨blk, _, _, _, hP4, hP5⟩ :=
        runRowFuel_cases cfg orc idNgay idPhien row fuel attempt hg
      rcases hP5 with heq | ⟨heq, _⟩
      · rw [heq] at h ⊢
        obtain ⟨ans, hS, rfl, hpl, hf, hd⟩ := hP4 a pl h
        exact ⟨ans, hS, hpl, hf, hd⟩
      · rw [heq] at h ⊢
        rcases List.mem_append.mp h with hb | hr
        · obtain ⟨ans, hS, rfl, hpl, hf, hd⟩ := hP4 a pl hb
          exact ⟨ans, hS, hpl, List.mem_append_left _ hf, List.mem_append_left _ hd⟩
        · obtain ⟨ans, hS, hpl, hf, hd⟩ := ih (attempt + 1) a pl hr
          exact ⟨ans, hS, hpl, List.mem_append_right _ hf, List.mem_append_right _ hd⟩
    · simp [runRowFuel, hg] at h

theorem runRowFuel_attemptEvents (cfg : Config) (orc : Nat → AttemptOracle)
    (idNgay idPhien : String) (row : Row) : ∀ fuel attempt a,
      attemptEvents a (runRowFuel cfg orc idNgay idPhien row fuel attempt).2 = []
      ∨ ∃ rest, attemptEvents a (runRowFuel cfg orc idNgay idPhien row fuel attempt).2
          = RowEvent.fetchCaptcha a :: rest := by
  intro fuel
  induction fuel with
  | zero => intro attempt a; left; simp [runRowFuel, attemptEvents]
  | succ fuel ih =>
    intro attempt a
    by_cases hg : attempt < cfg.maxTries
    · obtain ⟨blk, hP1, hP2, _, _, hP5⟩ :=
        runRowFuel_cases cfg orc idNgay idPhien row fuel attempt hg
      by_cases ha : a = attempt + 1
      · subst ha
        obtain ⟨btail, rfl⟩ : ∃ t, blk = RowEvent.fetchCaptcha (attempt + 1) :: t := by
          cases blk with
          | nil => simp at hP2
          | cons b t =>
            have hb : b = RowEvent.fetchCaptcha (attempt + 1) := by simpa using hP2
            exact ⟨t, by rw [hb]⟩
        have hblk : List.filter (fun e => attemptOf e == attempt + 1)
            (RowEvent.fetchCaptcha (attempt + 1) :: btail)
              = RowEvent.fetchCaptcha (attempt + 1) :: btail := by
          rw [List.filter_eq_self]
          intro e he
          rw [(hP1 e he).1]
          exact beq_self_eq_true (attempt + 1)
        have hrec : List.filter (fun e => attemptOf e == attempt + 1)
            (runRowFuel cfg orc idNgay idPhien row fuel (attempt + 1)).2 = [] := by
          rw [List.filter_eq_nil_iff]
          intro e he
          have := (runRowFuel_mem cfg orc idNgay idPhien row fuel (attempt + 1) e he).1
          simp only [beq_iff_eq]
          omega
        rcases hP5 with heq | ⟨heq, _⟩
        · right
          unfold attemptEvents
          rw [heq, hblk]
          exact ⟨btail, rfl⟩
        · right
          unfold attemptEvents
          rw [heq, List.filter_append, hblk, hrec, List.append_nil]
          exact ⟨btail, rfl⟩
      · have hblk : attemptEvents a blk = [] := by
          unfold attemptEvents
          rw [List.filter_eq_nil_iff]
          intro e he
          rw [(hP1 e he).1]
          simp only [beq_iff_eq]
          omega
        rcases hP5 with heq | ⟨heq, _⟩
        · left
          rw [heq]
          exact hblk
        · rw [heq]
          unfold attemptEvents at hblk ⊢
          rw [List.filter_append, hblk, List.nil_append]
          exact ih (attempt + 1) a
    · left
      simp [runRowFuel, hg, attemptEvents]

theorem runRowFuel_fetch_count (cfg : Config) (orc : Nat → AttemptOracle)
    (idNgay idPhien : String) (row : Row) : ∀ fuel attempt,
      ((runRowFuel cfg orc idNgay idPhien row fuel attempt).2.filter isFetchEv).length ≤ fuel := by
  intro fuel
  induction fuel with
  | zero => intro attempt; simp [runRowFuel]
  | succ fuel ih =>
    intro attempt
    by_cases hg : attempt < cfg.maxTries
    · obtain ⟨blk, _, _, hP3, _, hP5⟩ :=
        runRowFuel_cases cfg orc idNgay idPhien row fuel attempt hg
      rcases hP5 with heq | ⟨heq, _⟩
      · rw [heq, hP3]
        simp
      · rw [heq, List.filter_append, hP3]
        have := ih (attempt + 1)
        simp only [List.length_append, List.length_cons, List.length_nil]
        omega
    · simp [runRowFuel, hg]

theorem runRowFuel_fetch_mem (cfg : Config) (orc : Nat → AttemptOracle)
    (idNgay idPhien : String) (row : Row) (fuel attempt : Nat)
    (hg : attempt < cfg.maxTries) (hf : 0 < fuel) :
    RowEvent.fetchCaptcha (attempt + 1) ∈ (runRowFuel cfg orc idNgay idPhien row fuel attempt).2 := by
  obtain ⟨fuel, rfl⟩ : ∃ f, fuel = f + 1 := ⟨fuel - 1, by omega⟩
  obtain ⟨blk, _, hP2, _, _, hP5⟩ :=
    runRowFuel_cases cfg orc idNgay idPhien row fuel attempt hg
  have hm := head?_mem hP2
  rcases hP5 with heq | ⟨heq, _⟩
  · rw [heq]
    exact hm
  · rw [heq]
    exact List.mem_append_left _ hm

theorem runRow_exit (cfg : Config) (orc : Nat → AttemptOracle) (idNgay idPhien : String)
    (row : Row) : (runRow cfg orc idNgay idPhien row).1
      = (runRowFuel cfg orc idNgay idPhien row cfg.maxTries 0).1 := by
  cases hx : (runRowFuel cfg orc idNgay idPhien row cfg.maxTries 0).1 with
  | successExit a => simp [runRow, hx]
  | sessionFull a => simp [runRow, hx]
  | noUrl a => by_cases hu : cfg.use2captcha <;> simp [runRow, hx, hu]
  | otherFailure a r => by_cases hu : cfg.use2captcha <;> simp [runRow, hx, hu]
  | manualPending a => by_cases hu : cfg.use2captcha <;> simp [runRow, hx, hu]
  | exhausted => by_cases hu : cfg.use2captcha <;> simp [runRow, hx, hu]

theorem runRow_trace (cfg : Config) (orc : Nat → AttemptOracle) (idNgay idPhien : String)
    (row : Row) : (runRow cfg orc idNgay idPhien row).2
        = (runRowFuel cfg orc idNgay idPhien row cfg.maxTries 0).2
      ∨ (runRow cfg orc idNgay idPhien row).2
        = (runRowFuel cfg orc idNgay idPhien row cfg.maxTries 0).2
            ++ [RowEvent.skipMsg cfg.maxTries] := by
  cases hx : (runRowFuel cfg orc idNgay idPhien row cfg.maxTries 0).1 with
  | successExit a => left; simp [runRow, hx]
  | sessionFull a => left; simp [runRow, hx]
  | noUrl a =>
    by_cases hu : cfg.use2captcha
    · right; simp [runRow, hx, hu]
    · left; simp [runRow, hx, hu]
  | otherFailure a r =>
    by_cases hu : cfg.use2captcha
    · right; simp [runRow, hx, hu]
    · left; simp [runRow, hx, hu]
  | manualPending a =>
    by_cases hu : cfg.use2captcha
    · right; simp [runRow, hx, hu]
    · left; simp [runRow, hx, hu]
  | exhausted =>
    by_cases hu : cfg.use2captcha
    · right; simp [runRow, hx, hu]
    · left; simp [runRow, hx, hu]

/-- Claim C1: classification of every raw submission response in the
automatic captcha loop, at any attempt.  A text containing the success
marker ends the row successfully and stops the loop; otherwise a text
matching a session-full phrase (case-insensitively) exits with the
session-full signal; otherwise a text whose lowercase form contains
"captcha" consumes the attempt and the loop continues — requesting a
fresh challenge whenever a further attempt is allowed; any other text
ends the row with no further attempt. -/
theorem C1_response_classification (cfg : Config) (orc : Nat → AttemptOracle)
    (idNgay idPhien : String) (row : Row) (fuel attempt : Nat)
    (hg : attempt < cfg.maxTries) (hAuto : cfg.use2captcha = true)
    (u img text ans : String)
    (hF : (orc (attempt + 1)).fetchUrl = .ok (some u))
    (hD : (orc (attempt + 1)).download = .ok img)
    (hS : (orc (attempt + 1)).solverAnswer = some ans)
    (hR : (orc (attempt + 1)).submitResp = .ok text) :
    (strContains text SUCCESS_MARKER = true →
      runRowFuel cfg orc idNgay idPhien row (fuel + 1) attempt
        = (.successExit (attempt + 1),
           [.fetchCaptcha (attempt + 1), .downloadImage (attempt + 1),
            .submitReg (attempt + 1) (build_payload idNgay idPhien row ans),
            .successMsg (attempt + 1)]))
    ∧ (strContains text SUCCESS_MARKER = false → is_session_full text = true →
      runRowFuel cfg orc idNgay idPhien row (fuel + 1) attempt
        = (.sessionFull (attempt + 1),
           [.fetchCaptcha (attempt + 1), .downloadImage (attempt + 1),
            .submitReg (attempt + 1) (build_payload idNgay idPhien row ans),
            .sessionFullMsg (attempt + 1)]))
    ∧ (strContains text SUCCESS_MARKER = false → is_session_full text = false →
        strContains (pyLower text) "captcha" = true →
      (runRowFuel cfg orc idNgay idPhien row (fuel + 1) attempt
        = ((runRowFuel cfg orc idNgay idPhien row fuel (attempt + 1)).1,
           .fetchCaptcha (attempt + 1) :: .downloadImage (attempt + 1) ::
             .submitReg (attempt + 1) (build_payload idNgay idPhien row ans) ::
             (runRowFuel cfg orc idNgay idPhien row fuel (attempt + 1)).2))
      ∧ (attempt + 1 < cfg.maxTries → 0 < fuel →
          RowEvent.fetchCaptcha (attempt + 2)
            ∈ (runRowFuel cfg orc idNgay idPhien row fuel (attempt + 1)).2))
    ∧ (strContains text SUCCESS_MARKER = false → is_session_full text = false →
        strContains (pyLower text) "captcha" = false →
      runRowFuel cfg orc idNgay idPhien row (fuel + 1) attempt
        = (.otherFailure (attempt + 1) text,
           [.fetchCaptcha (attempt + 1), .downloadImage (attempt + 1),
            .submitReg (attempt + 1) (build_payload idNgay idPhien row ans)])) := by
  refine ⟨?_, ?_, ?_, ?_⟩
  · intro h1
    simp [runRowFuel, hg, hAuto, hF, hD, hS, hR, h1]
  · intro h1 h2
    simp [runRowFuel, hg, hAuto, hF, hD, hS, hR, h1, h2]
  · intro h1 h2 h3
    constructor
    · simp [runRowFuel, hg, hAuto, hF, hD, hS, hR, h1, h2, h3]
    · intro hg2 hf
      exact runRowFuel_fetch_mem cfg orc idNgay idPhien row fuel (attempt + 1) hg2 hf
  · intro h1 h2 h3
    simp [runRowFuel, hg, hAuto, hF, hD, hS, hR, h1, h2, h3]

/-- Claim C1 witness: with a response carrying the success marker, the
first attempt of a concrete row ends the loop successfully. -/
theorem C1_response_classification_witness :
    runRowFuel cfgAuto (fun _ => okAttempt) "NG1" "1" rowA 4 0
      = (LoopExit.successExit 1,
         [RowEvent.fetchCaptcha 1, RowEvent.downloadImage 1,
          RowEvent.submitReg 1 (build_payload "NG1" "1" rowA "ans"),
          RowEvent.successMsg 1]) :=
  (C1_response_classification cfgAuto (fun _ => okAttempt) "NG1" "1" rowA 3 0
    (by decide) rfl "u" "img" "!!!True|~~|saved" "ans" rfl rfl rfl rfl).1 (by decide)

/-- Claim C5: the captcha loop of a row performs at most
`CAPTCHA_MAX_TRIES` attempts (each attempt requests exactly one
challenge, and at most `maxTries` challenge requests appear in the
trace, every event belonging to an attempt number within the budget);
and in automatic mode, when the loop ends exhausted without success,
session-full, or manual suspension, exactly one skip report is sent,
carrying the exhaustion count `CAPTCHA_MAX_TRIES`. -/
theorem C5_attempt_budget (cfg : Config) (orc : Nat → AttemptOracle)
    (idNgay idPhien : String) (row : Row) :
    ((runRow cfg orc idNgay idPhien row).2.filter isFetchEv).length ≤ cfg.maxTries
    ∧ (∀ e ∈ (runRow cfg orc idNgay idPhien row).2, attemptOf e ≤ cfg.maxTries)
    ∧ (cfg.use2captcha = true →
        (runRow cfg orc idNgay idPhien row).1 = .exhausted →
        (runRow cfg orc idNgay idPhien row).2.filter isSkipEv
          = [RowEvent.skipMsg cfg.maxTries]) := by
  refine ⟨?_, ?_, ?_⟩
  · rcases runRow_trace cfg orc idNgay idPhien row with h | h
    · rw [h]
      exact runRowFuel_fetch_count cfg orc idNgay idPhien row cfg.maxTries 0
    · rw [h, List.filter_append]
      have h2 : [RowEvent.skipMsg cfg.maxTries].filter isFetchEv = [] := rfl
      rw [h2, List.append_nil]
      exact runRowFuel_fetch_count cfg orc idNgay idPhien row cfg.maxTries 0
  · intro e he
    rcases runRow_trace cfg orc idNgay idPhien row with h | h
    · rw [h] at he
      exact (runRowFuel_mem cfg orc idNgay idPhien row cfg.maxTries 0 e he).2.1
    · rw [h] at he
      rcases List.mem_append.mp he with hm | hm
      · exact (runRowFuel_mem cfg orc idNgay idPhien row cfg.maxTries 0 e hm).2.1
      · have : e = RowEvent.skipMsg cfg.maxTries := by simpa using hm
        subst this
        simp [attemptOf]
  · intro hU hE
    have hskipnil : (runRowFuel cfg orc idNgay idPhien row cfg.maxTries 0).2.filter isSkipEv
        = [] := by
      rw [List.filter_eq_nil_iff]
      intro e he
      have := (runRowFuel_mem cfg orc idNgay idPhien row cfg.maxTries 0 e he).2.2
      simp [this]
    have hfe : (runRowFuel cfg orc idNgay idPhien row cfg.maxTries 0).1 = .exhausted := by
      rw [← runRow_exit]
      exact hE
    have htr : (runRow cfg orc idNgay idPhien row).2
        = (runRowFuel cfg orc idNgay idPhien row cfg.maxTries 0).2
            ++ [RowEvent.skipMsg cfg.maxTries] := by
      simp [runRow, hfe, hU]
    rw [htr, List.filter_append, hskipnil, List.nil_append]
    rfl

/-- Claim C5 witness: with the solver timing out on every attempt, a
concrete row exhausts the default budget of 4 attempts, reports the skip
exactly once with count 4, and makes at most 4 challenge requests. -/
theorem C5_attempt_budget_witness :
    (runRow cfgAuto (fun _ => timeoutAttempt) "NG1" "1" rowA).1 = LoopExit.exhausted
    ∧ (runRow cfgAuto (fun _ => timeoutAttempt) "NG1" "1" rowA).2.filter isSkipEv
        = [RowEvent.skipMsg 4]
    ∧ ((runRow cfgAuto (fun _ => timeoutAttempt) "NG1" "1" rowA).2.filter isFetchEv).length ≤ 4 :=
  ⟨by decide,
   (C5_attempt_budget cfgAuto (fun _ => timeoutAttempt) "NG1" "1" rowA).2.2 rfl (by decide),
   (C5_attempt_budget cfgAuto (fun _ => timeoutAttempt) "NG1" "1" rowA).1⟩

/-- Claim C9: every attempt of the loop begins with a fresh captcha
request (the first event of any attempt's block is its own challenge
fetch), and every submission at attempt `a` submits the solver's answer
to the challenge fetched and downloaded at attempt `a` itself — never a
challenge from an earlier attempt. -/
theorem C9_fresh_challenge_each_attempt (cfg : Config) (orc : Nat → AttemptOracle)
    (idNgay idPhien : String) (row : Row) (fuel attempt : Nat) :
    (∀ a, attemptEvents a (runRowFuel cfg orc idNgay idPhien row fuel attempt).2 = []
      ∨ ∃ rest, attemptEvents a (runRowFuel cfg orc idNgay idPhien row fuel attempt).2
          = RowEvent.fetchCaptcha a :: rest)
    ∧ (∀ a pl, RowEvent.submitReg a pl
          ∈ (runRowFuel cfg orc idNgay idPhien row fuel attempt).2 →
        ∃ ans, (orc a).solverAnswer = some ans
          ∧ pl = build_payload idNgay idPhien row ans
          ∧ RowEvent.fetchCaptcha a ∈ (runRowFuel cfg orc idNgay idPhien row fuel attempt).2
          ∧ RowEvent.downloadImage a
              ∈ (runRowFuel cfg orc idNgay idPhien row fuel attempt).2) :=
  ⟨fun a => runRowFuel_attemptEvents cfg orc idNgay idPhien row fuel attempt a,
   fun a pl h => runRowFuel_submit cfg orc idNgay idPhien row fuel attempt a pl h⟩

/-- Claim C9 witness: in a concrete successful run, the submission of
attempt 1 uses the solver answer of attempt 1's own challenge, whose
fetch and download belong to the trace. -/
theorem C9_fresh_challenge_witness :
    RowEvent.fetchCaptcha 1 ∈ (runRowFuel cfgAuto (fun _ => okAttempt) "NG1" "1" rowA 4 0).2
    ∧ okAttempt.solverAnswer = some "ans" := by
  obtain ⟨ans, _, _, hf, _⟩ :=
    (C9_fresh_challenge_each_attempt cfgAuto (fun _ => okAttempt) "NG1" "1" rowA 4 0).2 1
      (build_payload "NG1" "1" rowA "ans") (by decide)
  exact ⟨hf, rfl⟩

/-!  The per-day row loop: early stop on the session-full signal. -/

theorem isSessionFullExit_true {x : LoopExit} (h : isSessionFullExit x = true) :
    ∃ a, x = .sessionFull a := by
  cases x <;> first
    | exact ⟨_, rfl⟩
    | simp [isSessionFullExit] at h

theorem processRows_cons_notFull (cfg : Config) (rowOrc : Nat → Nat → AttemptOracle)
    (idNgay idPhien : String) (row0 : Row) (rest : List Row) (i : Nat)
    (h : isSessionFullExit (runRow cfg (rowOrc i) idNgay idPhien row0).1 = false) :
    processRows cfg rowOrc idNgay idPhien (row0 :: rest) i
      = (runRow cfg (rowOrc i) idNgay idPhien row0).2.map (DayEvent.rowEv i)
          ++ processRows cfg rowOrc idNgay idPhien rest (i + 1) := by
  cases hx : (runRow cfg (rowOrc i) idNgay idPhien row0).1 with
  | sessionFull a => rw [hx] at h; simp [isSessionFullExit] at h
  | successExit a => simp [processRows, hx]
  | noUrl a => simp [processRows, hx]
  | otherFailure a r => simp [processRows, hx]
  | manualPending a => simp [processRows, hx]
  | exhausted => simp [processRows, hx]

theorem processRows_cons_full (cfg : Config) (rowOrc : Nat → Nat → AttemptOracle)
    (idNgay idPhien : String) (row0 : Row) (rest : List Row) (i a : Nat)
    (hx : (runRow cfg (rowOrc i) idNgay idPhien row0).1 = .sessionFull a) :
    processRows cfg rowOrc idNgay idPhien (row0 :: rest) i
      = (runRow cfg (rowOrc i) idNgay idPhien row0).2.map (DayEvent.rowEv i) := by
  simp [processRows, hx]

theorem processRows_cons_cases (cfg : Config) (rowOrc : Nat → Nat → AttemptOracle)
    (idNgay idPhien : String) (row0 : Row) (rest : List Row) (i : Nat) :
    processRows cfg rowOrc idNgay idPhien (row0 :: rest) i
      = (runRow cfg (rowOrc i) idNgay idPhien row0).2.map (DayEvent.rowEv i)
    ∨ processRows cfg rowOrc idNgay idPhien (row0 :: rest) i
      = (runRow cfg (rowOrc i) idNgay idPhien row0).2.map (DayEvent.rowEv i)
          ++ processRows cfg rowOrc idNgay idPhien rest (i + 1) := by
  by_cases h : isSessionFullExit (runRow cfg (rowOrc i) idNgay idPhien row0).1 = true
  · obtain ⟨a, hx⟩ := isSessionFullExit_true h
    exact Or.inl (processRows_cons_full cfg rowOrc idNgay idPhien row0 rest i a hx)
  · exact Or.inr (processRows_cons_notFull cfg rowOrc idNgay idPhien row0 rest i
      (by simpa using h))

theorem rowsTraces_index (cfg : Config) (rowOrc : Nat → Nat → AttemptOracle)
    (idNgay idPhien : String) : ∀ (l : List Row) (i idx : Nat) (e : RowEvent),
      DayEvent.rowEv idx e ∈ rowsTraces cfg rowOrc idNgay idPhien l i →
      idx < i + l.length := by
  intro l
  induction l with
  | nil => intro i idx e h; simp [rowsTraces] at h
  | cons row rest ih =>
    intro i idx e h
    simp only [rowsTraces] at h
    rcases List.mem_append.mp h with h1 | h1
    · unfold rowTrace at h1
      obtain ⟨e', _, heq⟩ := List.mem_map.mp h1
      obtain ⟨h2, _⟩ : i = idx ∧ e' = e := by simpa using heq
      simp only [List.length_cons]
      omega
    · have := ih (i + 1) idx e h1
      simp only [List.length_cons]
      omega

theorem processRows_sessionFull (cfg : Config) (rowOrc : Nat → Nat → AttemptOracle)
    (idNgay idPhien : String) : ∀ (k : Nat) (rows : List Row) (i : Nat) (rowK : Row),
      rows[k]? = some rowK →
      (∀ j, j < k → ∀ rowJ, rows[j]? = some rowJ →
        isSessionFullExit (runRow cfg (rowOrc (i + j)) idNgay idPhien rowJ).1 = false) →
      isSessionFullExit (runRow cfg (rowOrc (i + k)) idNgay idPhien rowK).1 = true →
      processRows cfg rowOrc idNgay idPhien rows i
        = rowsTraces cfg rowOrc idNgay idPhien (rows.take (k + 1)) i := by
  intro k
  induction k with
  | zero =>
    intro rows i rowK hK hB hF
    cases rows with
    | nil => simp at hK
    | cons row0 rest =>
      obtain rfl : row0 = rowK := by simpa using hK
      rw [Nat.add_zero] at hF
      obtain ⟨a, hx⟩ := isSessionFullExit_true hF
      rw [processRows_cons_full cfg rowOrc idNgay idPhien row0 rest i a hx]
      simp [rowsTraces, rowTrace]
  | succ k ih =>
    intro rows i rowK hK hB hF
    cases rows with
    | nil => simp at hK
    | cons row0 rest =>
      have h0 : isSessionFullExit (runRow cfg (rowOrc i) idNgay idPhien row0).1 = false := by
        have := hB 0 (by omega) row0 (by simp)
        simpa using this
      have hK' : rest[k]? = some rowK := by simpa using hK
      have hB' : ∀ j, j < k → ∀ rowJ, rest[j]? = some rowJ →
          isSessionFullExit (runRow cfg (rowOrc (i + 1 + j)) idNgay idPhien rowJ).1 = false := by
        intro j hj rowJ hrj
        have hmem : (row0 :: rest)[j + 1]? = some rowJ := by simpa using hrj
        have := hB (j + 1) (by omega) rowJ hmem
        have harith : i + (j + 1) = i + 1 + j := by omega
        rw [harith] at this
        exact this
      have hF' : isSessionFullExit
          (runRow cfg (rowOrc (i + 1 + k)) idNgay idPhien rowK).1 = true := by
        have harith : i + (k + 1) = i + 1 + k := by omega
        rw [← harith]
        exact hF
      rw [processRows_cons_notFull cfg rowOrc idNgay idPhien row0 rest i h0,
        ih rest (i + 1) rowK hK' hB' hF']
      simp [rowsTraces, rowTrace, List.take_succ_cons]

theorem runRow_submit_mem (cfg : Config) (orc : Nat → AttemptOracle) (idNgay idPhien : String)
    (row : Row) (a : Nat) (pl : List (String × String))
    (h : RowEvent.submitReg a pl ∈ (runRow cfg orc idNgay idPhien row).2) :
    RowEvent.submitReg a pl ∈ (runRowFuel cfg orc idNgay idPhien row cfg.maxTries 0).2 := by
  rcases runRow_trace cfg orc idNgay idPhien row with ht | ht
  · rw [ht] at h
    exact h
  · rw [ht] at h
    rcases List.mem_append.mp h with h1 | h1
    · exact h1
    · simp at h1

theorem processRows_submit (cfg : Config) (rowOrc : Nat → Nat → AttemptOracle)
    (idNgay idPhien : String) : ∀ (rows : List Row) (i idx a : Nat) (pl : List (String × String)),
      DayEvent.rowEv idx (RowEvent.submitReg a pl)
          ∈ processRows cfg rowOrc idNgay idPhien rows i →
      ∃ row ans, pl = build_payload idNgay idPhien row ans := by
  intro rows
  induction rows with
  | nil => intro i idx a pl h; simp [processRows] at h
  | cons row0 rest ih =>
    intro i idx a pl h
    have hmap : ∀ (hm : DayEvent.rowEv idx (RowEvent.submitReg a pl)
        ∈ (runRow cfg (rowOrc i) idNgay idPhien row0).2.map (DayEvent.rowEv i)),
        ∃ row ans, pl = build_payload idNgay idPhien row ans := by
      intro hm
      obtain ⟨e', he', heq⟩ := List.mem_map.mp hm
      obtain ⟨rfl, rfl⟩ : i = idx ∧ e' = RowEvent.submitReg a pl := by simpa using heq
      have hfm := runRow_submit_mem cfg (rowOrc i) idNgay idPhien row0 a pl he'
      obtain ⟨ans, _, hpl, _, _⟩ :=
        runRowFuel_submit cfg (rowOrc i) idNgay idPhien row0 cfg.maxTries 0 a pl hfm
      exact ⟨row0, ans, hpl⟩
    rcases processRows_cons_cases cfg rowOrc idNgay idPhien row0 rest i with hc | hc
    · rw [hc] at h
      exact hmap h
    · rw [hc] at h
      rcases List.mem_append.mp h with h1 | h1
      · exact hmap h1
      · exact ih (i + 1) idx a pl h1

/-- Claim C4: when the submission result of row `k` classifies as
session-full (no earlier row of the day having done so), the day trace
is exactly the concatenated traces of rows `0..k`: no gateway call of
any kind (captcha fetch, image download, registration submit) is made
for rows `k+1..n`, and the events of the rows before `k` are exactly
those the rows produced on their own. -/
theorem C4_session_full_stops_day (cfg : Config) (orc : DayOracle) (day : String)
    (rows : List Row) (st : DayState) (k : Nat) (rowK : Row)
    (idNgay : String) (s0 : Session) (srest : List Session)
    (hMp : orc.mainPage = .ok ()) (hId : orc.dayId = some idNgay)
    (hS : orc.sessions = .ok (s0 :: srest))
    (hRow : rows[k]? = some rowK)
    (hBefore : ∀ j, j < k → ∀ rowJ, rows[j]? = some rowJ →
      isSessionFullExit (runRow cfg (orc.rowOrc j) idNgay s0.value rowJ).1 = false)
    (hFull : isSessionFullExit (runRow cfg (orc.rowOrc k) idNgay s0.value rowK).1 = true) :
    (processDay cfg orc day rows st).1
      = rowsTraces cfg orc.rowOrc idNgay s0.value (rows.take (k + 1)) 0
    ∧ (∀ idx e, DayEvent.rowEv idx e ∈ (processDay cfg orc day rows st).1 → idx ≤ k) := by
  have hPD : (processDay cfg orc day rows st).1
      = processRows cfg orc.rowOrc idNgay s0.value rows 0 := by
    simp [processDay, hMp, hId, hS]
  have hmain := processRows_sessionFull cfg orc.rowOrc idNgay s0.value k rows 0 rowK hRow
    (by
      intro j hj rowJ hrj
      have := hBefore j hj rowJ hrj
      simpa using this)
    (by simpa using hFull)
  refine ⟨by rw [hPD, hmain], ?_⟩
  intro idx e he
  rw [hPD, hmain] at he
  have hidx := rowsTraces_index cfg orc.rowOrc idNgay s0.value (rows.take (k + 1)) 0 idx e he
  have hlen : (rows.take (k + 1)).length ≤ k + 1 := by
    simp [List.length_take]
  omega

/-- Claim C4 witness: a concrete two-row day where row 0 receives a
session-full response produces exactly row 0's trace: row 1 never
appears. -/
theorem C4_session_full_witness :
    (processDay cfgAuto orcFullFirst "d" [rowA, rowA] ⟨[], []⟩).1
      = rowsTraces cfgAuto orcFullFirst.rowOrc "NG1" "1" ([rowA, rowA].take 1) 0 :=
  (C4_session_full_stops_day cfgAuto orcFullFirst "d" [rowA, rowA] ⟨[], []⟩ 0 rowA "NG1"
    ⟨"1", "A"⟩ [] rfl rfl rfl (by decide)
    (fun j hj => absurd hj (Nat.not_lt_zero j)) (by decide)).1

/-- Claim C7 counterexample: the payload built by `build_payload` has 11
pairwise-distinct keys (`Action` plus ten data fields), so it does not
consist of exactly 10 keys as the claim counts them. -/
theorem C7_counterexample :
    ((build_payload "10" "20" rowA "abcd").map Prod.fst).length = 11
    ∧ ((build_payload "10" "20" rowA "abcd").map Prod.fst).Nodup
    ∧ ¬ ((build_payload "10" "20" rowA "abcd").map Prod.fst).length = 10 :=
  ⟨rfl, by decide, by decide⟩

/-- Claim C7 (amended): for every row and captcha answer the payload has
exactly the 11 specified keys, in order, pairwise distinct; each
date-of-birth entry is the decimal string of Python's `int(...)` of its
cell — an integer-valued string whether the cell was an int or a
zero-fraction float — and in particular the float `5.0` becomes "5". -/
theorem C7_payload_keys (idNgay idPhien : String) (row : Row) (captcha : String) :
    (build_payload idNgay idPhien row captcha).map Prod.fst
      = ["Action", "idNgayBanHang", "idPhien", "HoTen", "NgaySinh_Ngay", "NgaySinh_Thang",
         "NgaySinh_Nam", "SoDienThoai", "Email", "CCCD", "Captcha"]
    ∧ ((build_payload idNgay idPhien row captcha).map Prod.fst).Nodup
    ∧ (build_payload idNgay idPhien row captcha).lookup "NgaySinh_Ngay"
        = some (toString (pyIntNum row.dobDay))
    ∧ (build_payload idNgay idPhien row captcha).lookup "NgaySinh_Thang"
        = some (toString (pyIntNum row.dobMonth))
    ∧ (build_payload idNgay idPhien row captcha).lookup "NgaySinh_Nam"
        = some (toString (pyIntNum row.dobYear))
    ∧ (∃ n : Int, toString (pyIntNum row.dobDay) = toString n)
    ∧ toString (pyIntNum (NumCell.floatIntV 5)) = "5" := by
  refine ⟨rfl, ?_, rfl, rfl, rfl, ⟨pyIntNum row.dobDay, rfl⟩, rfl⟩
  show (["Action", "idNgayBanHang", "idPhien", "HoTen", "NgaySinh_Ngay", "NgaySinh_Thang",
    "NgaySinh_Nam", "SoDienThoai", "Email", "CCCD", "Captcha"] : List String).Nodup
  decide

/-- Claim C8 counterexample: with sessions "A" (value "1") and "B"
(value "2") and a row that names session "B", the worker still submits
with `idPhien = "1"` — the first session — although a session labelled
"B" exists and the claim requires it to be chosen (the spec-modelled
selector would pick it). -/
theorem C8_counterexample :
    Session.mk "2" "B" ∈ [Session.mk "1" "A", Session.mk "2" "B"]
    ∧ rowB.sessionName = some "B"
    ∧ (Session.mk "2" "B").label = "B"
    ∧ DayEvent.rowEv 0 (RowEvent.submitReg 1 (build_payload "NG1" "1" rowB "ans"))
        ∈ (processDay cfgAuto orcAB "d" [rowB] ⟨[], []⟩).1
    ∧ ("idPhien", "1") ∈ build_payload "NG1" "1" rowB "ans"
    ∧ ("idPhien", "2") ∉ build_payload "NG1" "1" rowB "ans"
    ∧ specSelectSession [Session.mk "1" "A", Session.mk "2" "B"] rowB
        = some (Session.mk "2" "B") :=
  ⟨by decide, rfl, rfl, by decide, by decide, by decide, by decide⟩

/-- Claim C8 (amended): the worker always uses the first session in the
returned order, regardless of any session name in the rows; the choice
is computed once per day, so every registration submitted during the day
carries the first session's id. -/
theorem C8_first_session_always (cfg : Config) (orc : DayOracle) (day : String)
    (rows : List Row) (st : DayState) (idNgay : String) (s0 : Session) (srest : List Session)
    (hMp : orc.mainPage = .ok ()) (hId : orc.dayId = some idNgay)
    (hS : orc.sessions = .ok (s0 :: srest)) :
    ∀ idx a pl, DayEvent.rowEv idx (RowEvent.submitReg a pl)
        ∈ (processDay cfg orc day rows st).1 →
      ("idPhien", s0.value) ∈ pl := by
  intro idx a pl h
  have hPD : (processDay cfg orc day rows st).1
      = processRows cfg orc.rowOrc idNgay s0.value rows 0 := by
    simp [processDay, hMp, hId, hS]
  rw [hPD] at h
  obtain ⟨row, ans, rfl⟩ := processRows_submit cfg orc.rowOrc idNgay s0.value rows 0 idx a pl h
  simp [build_payload]

/-- Claim C8 (amended) witness: in the concrete two-session day, the
submitted payload carries the first session's id "1". -/
theorem C8_first_session_witness :
    ("idPhien", "1") ∈ build_payload "NG1" "1" rowB "ans" :=
  C8_first_session_always cfgAuto orcAB "d" [rowB] ⟨[], []⟩ "NG1" ⟨"1", "A"⟩
    [⟨"2", "B"⟩] rfl rfl rfl 0 1 (build_payload "NG1" "1" rowB "ans") (by decide)

/-!  The manual-captcha reply handler and its pending store. -/

theorem handle_text_none_text (admins : List String) (uid : Int) (st : PendingStore)
    (chatId : Int) (submitResp : List (String × String) → CallRes String) :
    handle_text admins uid st chatId none submitResp = (.silent, st) := by
  unfold handle_text handleTextBody
  split <;> rfl

theorem handle_text_not_admin (admins : List String) (uid : Int) (st : PendingStore)
    (chatId : Int) (text : Option String)
    (submitResp : List (String × String) → CallRes String)
    (h : is_admin admins uid = false) :
    handle_text admins uid st chatId text submitResp = (.silent, st) := by
  unfold handle_text
  rw [h]
  simp

theorem handle_text_no_key (admins : List String) (uid : Int) (st : PendingStore)
    (chatId : Int) (text : Option String)
    (submitResp : List (String × String) → CallRes String)
    (h : findChannelKey st chatId = none) :
    handle_text admins uid st chatId text submitResp = (.silent, st) := by
  unfold handle_text
  split
  · unfold handleTextBody
    cases text with
    | none => rfl
    | some t => rw [h]
  · rfl

theorem findChannelKey_some (st : PendingStore) (chatId : Int) (k : String)
    (h : findChannelKey st chatId = some k) :
    strStartsWith k (chatPrefixStr chatId) = true ∧ ∃ t, (k, t) ∈ st := by
  unfold findChannelKey at h
  cases hf : st.find? (fun p => strStartsWith p.1 (chatPrefixStr chatId)) with
  | none => rw [hf] at h; simp at h
  | some p =>
    rw [hf] at h
    obtain rfl : p.1 = k := by simpa using h
    refine ⟨by simpa using List.find?_some hf, p.2, ?_⟩
    have := List.mem_of_find?_eq_some hf
    simpa using this

theorem storePop_found (st : PendingStore) (k : String) (t : PendingTask)
    (hmem : (k, t) ∈ st) :
    ∃ d, storePop st k = (some d, st.filter (fun q => !(q.1 == k))) := by
  unfold storePop
  cases hf : st.find? (fun p => p.1 == k) with
  | none =>
    rw [List.find?_eq_none] at hf
    have := hf (k, t) hmem
    simp at this
  | some p => exact ⟨p.2, rfl⟩

theorem handle_text_popped (admins : List String) (uid : Int) (st : PendingStore)
    (chatId : Int) (t : String) (submitResp : List (String × String) → CallRes String)
    (k : String) (hAdm : is_admin admins uid = true)
    (hk : findChannelKey st chatId = some k) :
    (handle_text admins uid st chatId (some t) submitResp).2
      = st.filter (fun q => !(q.1 == k)) := by
  obtain ⟨_, tk, hmem⟩ := findChannelKey_some st chatId k hk
  obtain ⟨d, hpop⟩ := storePop_found st k tk hmem
  unfold handle_text handleTextBody
  rw [hAdm]
  simp only [if_true, reduceIte]
  rw [hk]
  simp only [hpop]
  repeat first
    | rfl
    | split

/-- Claim C6 counterexample: an admin reply on a channel with no pending
task is silently ignored — the handler sends nothing at all, not the
claimed "no pending task" response (which only exists on the
sequentially unreachable double-pop branch). -/
theorem C6_counterexample :
    handle_text [] 1 [] 5 (some "ABCD") (fun _ => CallRes.ok "resp") = (.silent, [])
    ∧ TextOutcome.silent ≠ TextOutcome.noTaskMsg :=
  ⟨rfl, by decide⟩

/-- Claim C6 (amended): pending manual-task consumption.  A reply on a
channel with no pending task is silently ignored (no reply, no store
change); when a reply pops the pending key `k`, no entry under `k`
remains — the task is consumed at most once — and if `k` was the only
pending key of the channel, any second reply on that channel is
silently ignored; and a reply from a channel different from the one a
task was registered under never pops that task. -/
theorem C6_manual_task_consumption (admins : List String) (uid : Int) (st : PendingStore)
    (chatId : Int) (text : Option String)
    (submitResp : List (String × String) → CallRes String) :
    (findChannelKey st chatId = none →
      handle_text admins uid st chatId text submitResp = (.silent, st))
    ∧ (∀ k t, is_admin admins uid = true → text = some t →
        findChannelKey st chatId = some k →
        (∀ q ∈ (handle_text admins uid st chatId text submitResp).2, ¬ q.1 = k)
        ∧ ((∀ p ∈ st, strStartsWith p.1 (chatPrefixStr chatId) = true → p.1 = k) →
            ∀ (text2 : Option String) (submitResp2 : List (String × String) → CallRes String),
              handle_text admins uid (handle_text admins uid st chatId text submitResp).2
                  chatId text2 submitResp2
                = (.silent, (handle_text admins uid st chatId text submitResp).2)))
    ∧ (∀ (c' : Int) (day : String) (idx : Nat) (task : PendingTask),
        chatId ≠ c' → (pendingKey c' day idx, task) ∈ st →
        (pendingKey c' day idx, task)
          ∈ (handle_text admins uid st chatId text submitResp).2) := by
  refine ⟨handle_text_no_key admins uid st chatId text submitResp, ?_, ?_⟩
  · intro k t hAdm htext hk
    subst htext
    have hst1 := handle_text_popped admins uid st chatId t submitResp k hAdm hk
    constructor
    · intro q hq
      rw [hst1] at hq
      have := (List.mem_filter.mp hq).2
      simpa using this
    · intro hOnly text2 submitResp2
      apply handle_text_no_key
      have hfind : (st.filter (fun q => !(q.1 == k))).find?
          (fun p => strStartsWith p.1 (chatPrefixStr chatId)) = none := by
        rw [List.find?_eq_none]
        intro p hp hpref
        have hmemf := List.mem_filter.mp hp
        have hpk : p.1 = k := hOnly p hmemf.1 hpref
        have hne := hmemf.2
        rw [hpk] at hne
        simp at hne
      unfold findChannelKey
      rw [hst1, hfind]
      rfl
  · intro c' day idx task hne hmem
    by_cases hAdm : is_admin admins uid = true
    · cases text with
      | none =>
        rw [handle_text_none_text admins uid st chatId submitResp]
        exact hmem
      | some t =>
        cases hk : findChannelKey st chatId with
        | none =>
          rw [handle_text_no_key admins uid st chatId (some t) submitResp hk]
          exact hmem
        | some k =>
          rw [handle_text_popped admins uid st chatId t submitResp k hAdm hk]
          rw [List.mem_filter]
          refine ⟨hmem, ?_⟩
          have hkpre := (findChannelKey_some st chatId k hk).1
          have hneq : pendingKey c' day idx ≠ k := by
            intro heq
            rw [← heq] at hkpre
            exact hne (chatPrefix_pendingKey chatId c' day idx hkpre)
          simp [hneq]
    · rw [handle_text_not_admin admins uid st chatId text submitResp
        (by simpa using hAdm)]
      exact hmem

/-- Claim C6 witness: on the concrete one-task store, the reply from
the registered chat 5 consumes the task, so a second reply from chat 5
is silently ignored; and a reply from the unrelated chat 7 leaves the
task in place. -/
theorem C6_manual_task_witness :
    handle_text [] 1 (handle_text [] 1 storeA 5 (some "ABCD") (fun _ => CallRes.ok "r")).2
        5 (some "QQQQ") (fun _ => CallRes.ok "r")
      = (.silent, (handle_text [] 1 storeA 5 (some "ABCD") (fun _ => CallRes.ok "r")).2)
    ∧ (pendingKey 5 "24/12/2024" 0, taskA)
        ∈ (handle_text [] 1 storeA 7 (some "x") (fun _ => CallRes.ok "r")).2 :=
  ⟨((C6_manual_task_consumption [] 1 storeA 5 (some "ABCD") (fun _ => CallRes.ok "r")).2.1
      (pendingKey 5 "24/12/2024" 0) "ABCD" rfl rfl (by decide)).2 (by decide)
      (some "QQQQ") (fun _ => CallRes.ok "r"),
   (C6_manual_task_consumption [] 1 storeA 7 (some "x") (fun _ => CallRes.ok "r")).2.2
     5 "24/12/2024" 0 taskA (by decide) (by decide)⟩

/-!  The admin gate. -/

/-- Claim C10: with an empty ADMINS list every user id is an admin and
all three handlers process the update (each equals its post-gate body);
with a non-empty list, a user is an admin exactly when the decimal
string of the id is listed; and for a non-admin user every handler
returns silently, with no reply and no state change. -/
theorem C10_admin_gate :
    (∀ uid : Int, is_admin [] uid = true)
    ∧ (∀ (admins : List String) (uid : Int), admins ≠ [] →
        (is_admin admins uid = true ↔ toString uid ∈ admins))
    ∧ (∀ (admins : List String) (uid : Int), is_admin admins uid = false →
        start admins uid = []
        ∧ (∀ st fn cols days, handle_excel admins uid st fn cols days = (.silent, st))
        ∧ (∀ st c text sr, handle_text admins uid st c text sr = (.silent, st)))
    ∧ (∀ uid : Int, start [] uid = [StartReply.usage])
    ∧ (∀ (uid : Int) st fn cols days,
        handle_excel [] uid st fn cols days = handleExcelBody st fn cols days)
    ∧ (∀ (uid : Int) st c text sr,
        handle_text [] uid st c text sr = handleTextBody st c text sr) := by
  refine ⟨fun uid => rfl, ?_, ?_, fun uid => rfl,
    fun uid st fn cols days => rfl, fun uid st c text sr => rfl⟩
  · intro admins uid hne
    have hie : admins.isEmpty = false := by
      cases admins with
      | nil => exact absurd rfl hne
      | cons a t => rfl
    show (admins.isEmpty || admins.elem (toString uid)) = true ↔ toString uid ∈ admins
    rw [hie, Bool.false_or]
    exact List.elem_iff
  · intro admins uid h
    refine ⟨?_, ?_, ?_⟩
    · unfold start
      rw [h]
      simp
    · intro st fn cols days
      unfold handle_excel
      rw [h]
      simp
    · intro st c text sr
      exact handle_text_not_admin admins uid st c text sr h

/-- Claim C10 witness: user 5 is an admin under ADMINS=["5"], is not an
admin under ADMINS=["9"], and in the latter case all three handlers are
silent. -/
theorem C10_admin_gate_witness :
    is_admin ["5"] 5 = true
    ∧ start ["9"] 5 = []
    ∧ handle_excel ["9"] 5 ⟨[], []⟩ none [] [] = (.silent, ⟨[], []⟩)
    ∧ handle_text ["9"] 5 [] 3 none (fun _ => CallRes.ok "r") = (.silent, []) :=
  ⟨(C10_admin_gate.2.1 ["5"] 5 (by decide)).mpr (by decide),
   (C10_admin_gate.2.2.1 ["9"] 5 (by decide)).1,
   (C10_admin_gate.2.2.1 ["9"] 5 (by decide)).2.1 ⟨[], []⟩ none [] [],
   (C10_admin_gate.2.2.1 ["9"] 5 (by decide)).2.2 [] 3 none (fun _ => CallRes.ok "r")⟩

end Popmart
